import Mathlib

/-!
The HTTP client of n8n-go (`client.go`, `errors.go`).

A shallow embedding of `NewClient`, `Client.DoRequest`, `APIError`, `NotFound` and
`noContent`, together with the parts of the Go standard library they call
(`strings.TrimRight`, `strconv.Atoi`, `http.Header`, `errors.As`, `encoding/json`
decoding into the error envelope), and the properties of the request pipeline.

Conventions.
* A Go `string` or `[]byte` is a list of bytes; a byte is a natural number below 256.
  A `nil` slice and an empty slice are both the empty list.
* Go `int` is 64 bits wide (`intSize`), `time.Duration` is an `int64` count of nanoseconds.
* Everything `DoRequest` cannot decide by itself is an explicit input of the model: the
  answers of the transport, whether the context is cancelled during a retry wait, what
  `json.Unmarshal` does with the caller's output target (see `World`).
-/

namespace N8n

/-! ## Bytes and strings -/

/-- A Go byte string: `string` and `[]byte` alike. -/
abbrev Bytes := List Nat

/-- The bytes of an ASCII string literal of the source (one byte per character). -/
def str (s : String) : Bytes := s.data.map Char.toNat

/-! ## `errors.go` -/

/-- APIError of `errors.go`:
    `Code string; Message string; StatusCode int; RawMessage []byte; RetryAfter time.Duration`.
    Only `Code` and `Message` carry a json tag. -/
structure APIError where
  Code : Bytes := []
  Message : Bytes := []
  StatusCode : Int := 0
  RawMessage : Bytes := []
  RetryAfter : Int := 0
deriving DecidableEq, Repr

/-- A Go `error` value, as far as `errors.As` can tell values apart: an `APIError` value, an
    error made by `fmt.Errorf` with one `%w` verb (format string, the other argument, the
    wrapped error), or any other error that has neither an `Unwrap` nor an `As` method.
    Errors that wrap several errors at once are not modelled. -/
inductive GoError where
  | api (e : APIError)
  | wrap (format : String) (arg : Bytes) (inner : GoError)
  | leaf (msg : String)
deriving DecidableEq, Repr

/-- The function errors.As with a target of type `*APIError`: the first `APIError` on the
    unwrap chain, if there is one. -/
def errorsAs : GoError → Option APIError
  | .api e => some e
  | .wrap _ _ inner => errorsAs inner
  | .leaf _ => none

/-- NotFound of `errors.go`; `none` is the nil error. -/
def NotFound (err : Option GoError) : Bool :=
  match err with
  | none => false
  | some e =>
    match errorsAs e with
    | none => false
    | some apiErr => apiErr.StatusCode == 404

/-- The function noContent of `errors.go`. -/
def noContent (err : Option GoError) : Bool :=
  match err with
  | none => false
  | some e =>
    match errorsAs e with
    | none => false
    | some apiErr => apiErr.StatusCode == 204

/-! ## `strconv.Atoi` and `time.Duration` -/

/-- Width of Go `int` on the platform. -/
def intSize : Nat := 64

/-- The digit loop of `strconv.Atoi`: `n = n*10 + int(ch - '0')`, a syntax error on any byte
    that is not an ASCII digit. -/
def atoiDigits : Nat → Bytes → Option Nat
  | n, [] => some n
  | n, ch :: s => if 48 ≤ ch ∧ ch ≤ 57 then atoiDigits (n * 10 + (ch - 48)) s else none

/-- The function strconv.Atoi for a 64-bit `int`, `none` for an error: an optional sign `+`
    or `-`, then at least one decimal digit and nothing else (base 10 admits no underscore);
    a value outside `[-2^63, 2^63 - 1]` is a range error. The fast path (fewer than 19 bytes)
    and the slow path (`ParseInt(s, 10, 0)`) accept the same strings with the same values. -/
def Atoi (s : Bytes) : Option Int :=
  match s with
  | [] => none
  | c :: rest =>
    let digits := if c = 45 ∨ c = 43 then rest else s
    match digits with
    | [] => none
    | _ =>
      match atoiDigits 0 digits with
      | none => none
      | some n =>
        let v : Int := if c = 45 then -(n : Int) else (n : Int)
        if -(2 : Int) ^ (intSize - 1) ≤ v ∧ v ≤ (2 : Int) ^ (intSize - 1) - 1 then some v else none

/-- Two's-complement wrap-around of a mathematical integer into `int64`. -/
def wrapInt64 (x : Int) : Int := (x + 2 ^ 63) % 2 ^ 64 - 2 ^ 63

/-- The constant time.Second, in nanoseconds. -/
def Second : Int := 1000000000

/-- The constant time.Minute, in nanoseconds. -/
def Minute : Int := 60 * Second

/-- The expression `time.Duration(secs) * time.Second`: an `int64` product. -/
def secondsToDuration (secs : Int) : Int := wrapInt64 (secs * Second)

/-! ## `http.Header` -/

/-- The MIME header map: canonical key to list of values. -/
abbrev Header := List (Bytes × List Bytes)

/-- The predicate validHeaderFieldByte of `net/textproto`: the token characters of RFC 7230. -/
def validHeaderFieldByte (c : Nat) : Bool :=
  (48 ≤ c && c ≤ 57) || (65 ≤ c && c ≤ 90) || (97 ≤ c && c ≤ 122) ||
  [33, 35, 36, 37, 38, 39, 42, 43, 45, 46, 94, 95, 96, 124, 126].contains c

/-- The canonicalising loop: upper case for the first letter and after each dash, lower case
    elsewhere. -/
def canonicalLoop : Bool → Bytes → Bytes
  | _, [] => []
  | upper, c :: s =>
    let c1 := if upper && (97 ≤ c && c ≤ 122) then c - 32
              else if !upper && (65 ≤ c && c ≤ 90) then c + 32 else c
    c1 :: canonicalLoop (c1 == 45) s

/-- The function textproto.CanonicalMIMEHeaderKey: a key holding a byte that is not a token
    character is returned unchanged. -/
def CanonicalMIMEHeaderKey (s : Bytes) : Bytes :=
  if s.all validHeaderFieldByte then canonicalLoop true s else s

/-- The method Header.Get: the first value stored under the canonical key, `""` if none. -/
def Header.Get (h : Header) (key : Bytes) : Bytes :=
  match h.lookup (CanonicalMIMEHeaderKey key) with
  | some (v :: _) => v
  | _ => []

/-- Whether the map has an entry for the canonical key. -/
def Header.Has (h : Header) (key : Bytes) : Bool :=
  (h.lookup (CanonicalMIMEHeaderKey key)).isSome

/-- The method Header.Set: replaces whatever is stored under the canonical key by the single
    value. -/
def Header.Set (h : Header) (key value : Bytes) : Header :=
  (CanonicalMIMEHeaderKey key, [value]) ::
    h.filter (fun kv => kv.1 != CanonicalMIMEHeaderKey key)

/-! ## `strings.TrimRight` and `NewClient` -/

/-- The function trimRightByte of package `strings`:
    `for len(s) > 0 && s[len(s)-1] == c { s = s[:len(s)-1] }`. -/
def trimRightByte (s : Bytes) (c : Nat) : Bytes := s.rdropWhile (fun b => b == c)

/-- The function strings.TrimRight for a cutset of ASCII bytes: an empty `s` or cutset gives
    `s`; a cutset of one byte goes through `trimRightByte` (the case of `NewClient`, whose
    cutset is `"/"`); a longer one removes the trailing bytes that are in the cutset
    (`trimRightASCII`). A cutset with a byte of 0x80 or more, which Go trims rune by rune,
    is outside the model. -/
def TrimRight (s cutset : Bytes) : Bytes :=
  if s = [] ∨ cutset = [] then s
  else
    match cutset with
    | [c] => trimRightByte s c
    | _ => s.rdropWhile (fun b => cutset.contains b)

/-- The part of `http.Client` the package sets: its `Timeout`, in nanoseconds. -/
structure HTTPClient where
  Timeout : Int
deriving DecidableEq, Repr

/-- Client of `client.go`. -/
structure Client where
  APIKey : Bytes
  BaseURL : Bytes
  http : HTTPClient
deriving DecidableEq, Repr

/-- The constant defaultTimeout of `client.go`. -/
def defaultTimeout : Int := 5 * Minute

/-- The constant maxRetries of `client.go`. -/
def maxRetries : Nat := 3

/-- NewClient of `client.go`; an option is a function that updates the client. -/
def NewClient (APIKey baseURL : Bytes) (opts : List (Client → Client)) : Client :=
  opts.foldl (fun c opt => opt c)
    { APIKey := APIKey, BaseURL := TrimRight baseURL (str "/"), http := { Timeout := defaultTimeout } }

/-- WithHTTPClient of `client.go`. -/
def WithHTTPClient (h : HTTPClient) : Client → Client := fun c => { c with http := h }

/-- The first statement of `DoRequest`: `url := c.BaseURL + endpoint`. -/
def requestURL (c : Client) (endpoint : Bytes) : Bytes := c.BaseURL ++ endpoint

/-! ## `encoding/json`: validating and reading a document

`json.Unmarshal` first checks the whole input for validity (`checkValid`) and decodes
only a valid document. The grammar is that of `scanner.go`: RFC 8259 values, white space
being space, tab, CR and LF, and at most `maxNestingDepth` open arrays and objects. -/

/-- A JSON value as the decoder sees it: a number keeps its literal text, a string and an
    object key are unquoted, members stay in document order (duplicates included). -/
inductive JValue where
  | null
  | bool (b : Bool)
  | number (lit : Bytes)
  | string (s : Bytes)
  | array (elems : List JValue)
  | object (members : List (Bytes × JValue))

/-- The predicate isSpace of `scanner.go`. -/
def isSpace (c : Nat) : Bool := c == 32 || c == 9 || c == 13 || c == 10

/-- An ASCII decimal digit. -/
def isDigit (c : Nat) : Bool := 48 ≤ c && c ≤ 57

/-- An ASCII hexadecimal digit, either case. -/
def isHex (c : Nat) : Bool := isDigit c || (97 ≤ c && c ≤ 102) || (65 ≤ c && c ≤ 70)

/-- The constant maxNestingDepth of `scanner.go`. -/
def maxNestingDepth : Nat := 10000

/-- Lexical tokens: the six structural bytes, a string (its raw text between the quotes,
    escapes not yet resolved) and a bare word (a maximal run of other bytes: a number or
    one of `true`, `false`, `null` in a valid document). -/
inductive Token where
  | lbrace | rbrace | lbrack | rbrack | colon | comma
  | strTok (raw : Bytes)
  | word (w : Bytes)

/-- State of the lexer between two bytes; accumulators are kept reversed. -/
inductive LexState where
  | idle
  | inWord (acc : Bytes)
  | inString (acc : Bytes)
  | inEsc (acc : Bytes)
  | inHex (acc : Bytes) (left : Nat)

/-- The structural token a byte stands for, if any. -/
def structural (c : Nat) : Option Token :=
  if c = 123 then some .lbrace else if c = 125 then some .rbrace
  else if c = 91 then some .lbrack else if c = 93 then some .rbrack
  else if c = 58 then some .colon else if c = 44 then some .comma else none

/-- The lexer, one byte at a time. Inside a string a byte below 0x20 is an error, a
    backslash must be followed by one of `"\/bfnrt` or by `u` and four hex digits; `none`
    is a syntax error. -/
def lex : LexState → Bytes → Option (List Token)
  | .idle, [] => some []
  | .inWord acc, [] => some [.word acc.reverse]
  | _, [] => none
  | .idle, c :: s =>
    if isSpace c then lex .idle s
    else if c = 34 then lex (.inString []) s
    else
      match structural c with
      | some t => (lex .idle s).map (fun ts => t :: ts)
      | none => lex (.inWord [c]) s
  | .inWord acc, c :: s =>
    if isSpace c then (lex .idle s).map (fun ts => .word acc.reverse :: ts)
    else if c = 34 then (lex (.inString []) s).map (fun ts => .word acc.reverse :: ts)
    else
      match structural c with
      | some t => (lex .idle s).map (fun ts => .word acc.reverse :: t :: ts)
      | none => lex (.inWord (c :: acc)) s
  | .inString acc, c :: s =>
    if c = 34 then (lex .idle s).map (fun ts => .strTok acc.reverse :: ts)
    else if c = 92 then lex (.inEsc (c :: acc)) s
    else if c < 32 then none
    else lex (.inString (c :: acc)) s
  | .inEsc acc, c :: s =>
    if c = 117 then lex (.inHex (c :: acc) 4) s
    else if [34, 92, 47, 98, 102, 110, 114, 116].contains c then lex (.inString (c :: acc)) s
    else none
  | .inHex acc left, c :: s =>
    if isHex c then
      (if left ≤ 1 then lex (.inString (c :: acc)) s else lex (.inHex (c :: acc) (left - 1)) s)
    else none

/-- The exponent of a number, if any, up to the end of the word: `[eE][+-]?[0-9]+`. -/
def validExp (s : Bytes) : Bool :=
  match s with
  | [] => true
  | c :: t =>
    (c == 101 || c == 69) &&
      (match (match t with
              | 43 :: u => u
              | 45 :: u => u
              | _ => t) with
       | d :: u => isDigit d && (u.dropWhile isDigit).isEmpty
       | [] => false)

/-- The fraction of a number, if any, then the exponent: `(\.[0-9]+)?`. -/
def validFrac (s : Bytes) : Bool :=
  match s with
  | 46 :: d :: t => isDigit d && validExp (t.dropWhile isDigit)
  | 46 :: [] => false
  | _ => validExp s

/-- The number grammar of `scanner.go`: `-?(0|[1-9][0-9]*)(\.[0-9]+)?([eE][+-]?[0-9]+)?`. -/
def validNumber (w : Bytes) : Bool :=
  match (match w with
         | 45 :: t => t
         | _ => w) with
  | [] => false
  | c :: t =>
    if c = 48 then validFrac t
    else (49 ≤ c && c ≤ 57) && validFrac (t.dropWhile isDigit)

/-- The value a bare word denotes. -/
def classifyWord (w : Bytes) : Option JValue :=
  if w = str "true" then some (.bool true)
  else if w = str "false" then some (.bool false)
  else if w = str "null" then some .null
  else if validNumber w then some (.number w)
  else none

/-! ### Unquoting a string (`unquoteBytes`) -/

/-- The function utf8.EncodeRune; a surrogate or a value above U+10FFFF is encoded as U+FFFD. -/
def encodeRune (r : Nat) : Bytes :=
  if r ≤ 0x7F then [r]
  else if r ≤ 0x7FF then [0xC0 + r / 64, 0x80 + r % 64]
  else if (0xD800 ≤ r ∧ r ≤ 0xDFFF) ∨ 0x10FFFF < r then [0xEF, 0xBF, 0xBD]
  else if r ≤ 0xFFFF then [0xE0 + r / 4096, 0x80 + r / 64 % 64, 0x80 + r % 64]
  else [0xF0 + r / 262144, 0x80 + r / 4096 % 64, 0x80 + r / 64 % 64, 0x80 + r % 64]

/-- A UTF-8 continuation byte. -/
def isCont (b : Nat) : Bool := 0x80 ≤ b && b ≤ 0xBF

/-- Size of the well-formed UTF-8 encoding at the head of `s`, as `utf8.DecodeRune` finds
    it (lead byte table `first`, `acceptRanges` for the second byte); `0` when `DecodeRune`
    answers `(RuneError, 1)`. -/
def utf8Len (s : Bytes) : Nat :=
  match s with
  | [] => 0
  | b0 :: rest =>
    if b0 < 0x80 then 1
    else if 0xC2 ≤ b0 ∧ b0 ≤ 0xDF then
      (match rest with
       | b1 :: _ => if isCont b1 then 2 else 0
       | _ => 0)
    else if 0xE0 ≤ b0 ∧ b0 ≤ 0xEF then
      (match rest with
       | b1 :: b2 :: _ =>
         if (if b0 = 0xE0 then 0xA0 else 0x80) ≤ b1 ∧ b1 ≤ (if b0 = 0xED then 0x9F else 0xBF)
            ∧ isCont b2 then 3 else 0
       | _ => 0)
    else if 0xF0 ≤ b0 ∧ b0 ≤ 0xF4 then
      (match rest with
       | b1 :: b2 :: b3 :: _ =>
         if (if b0 = 0xF0 then 0x90 else 0x80) ≤ b1 ∧ b1 ≤ (if b0 = 0xF4 then 0x8F else 0xBF)
            ∧ isCont b2 ∧ isCont b3 then 4 else 0
       | _ => 0)
    else 0

/-- Value of a hexadecimal digit. -/
def hexVal (c : Nat) : Nat :=
  if isDigit c then c - 48 else if 97 ≤ c ∧ c ≤ 102 then c - 87 else c - 55

/-- The function getu4 on the four hex digits that follow `\u`. -/
def getu4 (a b c d : Nat) : Nat := ((hexVal a * 16 + hexVal b) * 16 + hexVal c) * 16 + hexVal d

/-- The byte a one-letter escape stands for. -/
def escByte (e : Nat) : Nat :=
  if e = 98 then 8 else if e = 102 then 12 else if e = 110 then 10
  else if e = 114 then 13 else if e = 116 then 9 else e

/-- The function unquoteBytes on the raw text of a string the lexer accepted, one byte at a
    time: `copy` bytes are still to be copied from a well-formed multi-byte sequence, `skip`
    bytes of an escape already resolved are still to be passed over. A byte that starts no
    well-formed sequence becomes U+FFFD; `\uD800`..`\uDBFF` joins a following `\uDC00`..
    `\uDFFF` into one rune, any other surrogate escape becomes U+FFFD. -/
def unquoteAux : Nat → Nat → Bytes → Bytes
  | _, _, [] => []
  | copy, skip + 1, _ :: rest => unquoteAux copy skip rest
  | k + 1, 0, c :: rest => c :: unquoteAux k 0 rest
  | 0, 0, c :: rest =>
    if c = 92 then
      match rest with
      | 117 :: h1 :: h2 :: h3 :: h4 :: rest1 =>
        let rr := getu4 h1 h2 h3 h4
        if 0xD800 ≤ rr ∧ rr < 0xE000 then
          match rest1 with
          | 92 :: 117 :: g1 :: g2 :: g3 :: g4 :: _ =>
            let rr1 := getu4 g1 g2 g3 g4
            if isHex g1 ∧ isHex g2 ∧ isHex g3 ∧ isHex g4
                ∧ rr < 0xDC00 ∧ 0xDC00 ≤ rr1 ∧ rr1 < 0xE000 then
              encodeRune ((rr - 0xD800) * 1024 + (rr1 - 0xDC00) + 0x10000) ++ unquoteAux 0 11 rest
            else [0xEF, 0xBF, 0xBD] ++ unquoteAux 0 5 rest
          | _ => [0xEF, 0xBF, 0xBD] ++ unquoteAux 0 5 rest
        else encodeRune rr ++ unquoteAux 0 5 rest
      | e :: _ => escByte e :: unquoteAux 0 1 rest
      | [] => []
    else if c < 0x80 then c :: unquoteAux 0 0 rest
    else
      match utf8Len (c :: rest) with
      | 0 => [0xEF, 0xBF, 0xBD] ++ unquoteAux 0 0 rest
      | n + 1 => c :: unquoteAux n 0 rest

/-- The contents of a JSON string as a Go string. -/
def unquote (raw : Bytes) : Bytes := unquoteAux 0 0 raw

/-! ### Building the value -/

/-- An array or object that is still open: what it holds so far (reversed) and, for an
    object, the key of the member whose value is being read. -/
inductive Frame where
  | arr (rev : List JValue)
  | obj (rev : List (Bytes × JValue)) (key : Bytes)

/-- What the grammar admits next. `value true` and `key true` come right after an opening
    bracket, where the closing one is admitted as well. -/
inductive Expect where
  | value (closeOK : Bool)
  | key (closeOK : Bool)
  | colon (k : Bytes)
  | after
  | done (v : JValue)

/-- A value is complete: it is the document, or it goes into the innermost open frame. -/
def complete (v : JValue) (stack : List Frame) : Expect × List Frame :=
  match stack with
  | [] => (.done v, [])
  | .arr rev :: st => (.after, .arr (v :: rev) :: st)
  | .obj rev k :: st => (.after, .obj ((k, v) :: rev) [] :: st)

/-- One step of the parser; `none` is a syntax error (or a nesting deeper than
    `maxNestingDepth`). -/
def parseStep (e : Expect) (stack : List Frame) (t : Token) : Option (Expect × List Frame) :=
  match e, t with
  | .value _, .lbrace =>
    if stack.length + 1 ≤ maxNestingDepth then some (.key true, .obj [] [] :: stack) else none
  | .value _, .lbrack =>
    if stack.length + 1 ≤ maxNestingDepth then some (.value true, .arr [] :: stack) else none
  | .value _, .strTok raw => some (complete (.string (unquote raw)) stack)
  | .value _, .word w => (classifyWord w).map (fun v => complete v stack)
  | .value true, .rbrack =>
    (match stack with
     | .arr _ :: st => some (complete (.array []) st)
     | _ => none)
  | .key _, .strTok raw => some (.colon (unquote raw), stack)
  | .key true, .rbrace =>
    (match stack with
     | .obj _ _ :: st => some (complete (.object []) st)
     | _ => none)
  | .colon k, .colon =>
    (match stack with
     | .obj rev _ :: st => some (.value false, .obj rev k :: st)
     | _ => none)
  | .after, .comma =>
    (match stack with
     | .arr rev :: st => some (.value false, .arr rev :: st)
     | .obj rev k :: st => some (.key false, .obj rev k :: st)
     | [] => none)
  | .after, .rbrack =>
    (match stack with
     | .arr rev :: st => some (complete (.array rev.reverse) st)
     | _ => none)
  | .after, .rbrace =>
    (match stack with
     | .obj rev _ :: st => some (complete (.object rev.reverse) st)
     | _ => none)
  | _, _ => none

/-- The parser over the token list: the document must be exactly one value. -/
def parseTokens : Expect → List Frame → List Token → Option JValue
  | .done v, _, [] => some v
  | _, _, [] => none
  | e, stack, t :: ts =>
    match parseStep e stack t with
    | none => none
    | some (e1, stack1) => parseTokens e1 stack1 ts

/-- The document `data` holds, `none` when `checkValid` rejects it. -/
def parseJSON (data : Bytes) : Option JValue :=
  match lex .idle data with
  | none => none
  | some ts => parseTokens (.value false) [] ts

/-! ### Decoding into the error envelope

`DoRequest` decodes the body into `struct { Error *APIError }` (json key `error`) whose
pointer is preset to `&apiErr`. Every exported field of `APIError` is a decoding target:
`Code` and `Message` under their tags `code` and `message`, and `StatusCode`,
`RawMessage`, `RetryAfter`, which have no tag, under their own names. A value of the
wrong kind for its field is a type error: that field keeps its value, decoding goes on
with the next member (the first error is what `Unmarshal` returns, and `DoRequest` drops it). -/

/-- Folding of an object key for the comparison with a field name (`foldName`): ASCII
    letters to upper case, U+017F to `S` and U+212A to `K`; no other rune folds to an ASCII
    one, so other bytes stay. A key selects a field when both fold to the same bytes. -/
def foldName : Bytes → Bytes
  | [] => []
  | c :: rest =>
    if 97 ≤ c ∧ c ≤ 122 then (c - 32) :: foldName rest
    else
      match c, rest with
      | 0xC5, 0xBF :: _ => 83 :: (foldName rest).tail
      | 0xE2, 0x84 :: 0xAA :: _ => 75 :: (foldName rest).tail.tail
      | _, _ => c :: foldName rest

/-- Whether an object key selects the field of the given json name. -/
def keyIs (key : Bytes) (name : String) : Bool := foldName key == foldName (str name)

/-- Value of a byte of the standard base64 alphabet. -/
def b64Value (c : Nat) : Option Nat :=
  if 65 ≤ c ∧ c ≤ 90 then some (c - 65)
  else if 97 ≤ c ∧ c ≤ 122 then some (c - 71)
  else if 48 ≤ c ∧ c ≤ 57 then some (c + 4)
  else if c = 43 then some 62
  else if c = 47 then some 63
  else none

/-- The quanta of `base64.StdEncoding.Decode` on an input without CR and LF: four alphabet
    bytes give three bytes; the last quantum may be `xx==` (one byte) or `xxx=` (two bytes);
    anything else is a `CorruptInputError`. Left-over bits are not checked (not strict). -/
def decodeQuanta : Bytes → Option Bytes
  | [] => some []
  | [a, b, 61, 61] =>
    (match b64Value a, b64Value b with
     | some x, some y => some [(x * 4 + y / 16) % 256]
     | _, _ => none)
  | [a, b, c, 61] =>
    (match b64Value a, b64Value b, b64Value c with
     | some x, some y, some z => some [(x * 4 + y / 16) % 256, (y % 16 * 16 + z / 4) % 256]
     | _, _, _ => none)
  | a :: b :: c :: d :: rest =>
    (match b64Value a, b64Value b, b64Value c, b64Value d, decodeQuanta rest with
     | some x, some y, some z, some w, some out =>
       some ((x * 4 + y / 16) % 256 :: (y % 16 * 16 + z / 4) % 256 :: (z % 4 * 64 + w) % 256 :: out)
     | _, _, _, _, _ => none)
  | _ => none

/-- The function base64.StdEncoding.Decode, `none` for an error; CR and LF are ignored
    wherever they stand. -/
def base64Decode (src : Bytes) : Option Bytes :=
  decodeQuanta (src.filter (fun c => c != 10 && c != 13))

/-- The function strconv.ParseInt(s, 10, 64), `none` for an error; on a 64-bit platform it
    accepts what `Atoi` accepts. -/
def ParseInt64 (s : Bytes) : Option Int := Atoi s

/-- Decoding of an array element into a `uint8`: a number literal that
    `strconv.ParseUint(s, 10, 64)` accepts and that does not overflow `uint8`. -/
def decodeUint8 : JValue → Option Nat
  | .number lit =>
    (match lit, atoiDigits 0 lit with
     | _ :: _, some n => if n ≤ 255 then some n else none
     | _, _ => none)
  | _ => none

/-- Decoding of the elements of an array into a byte slice whose backing array holds
    `backing`: element `i` goes to slot `i`; an element that is not a `uint8` (a type error,
    or `null`) leaves in its slot what the backing array holds there, zero past its end. -/
def decodeElems : Bytes → List JValue → Bytes
  | _, [] => []
  | backing, e :: es =>
    (match decodeUint8 e with
     | some b => b
     | none => backing.headD 0) :: decodeElems backing.tail es

/-- The error being filled while the envelope is decoded: `hidden` holds the bytes of the
    backing array of `RawMessage` between its length and its capacity (what an earlier,
    longer array left there), `attached` says that `tmp.Error` still points to `apiErr`. -/
structure EnvState where
  apiErr : APIError
  hidden : Bytes
  attached : Bool

/-- Decoding of a string field: a JSON string is stored, `null` changes nothing, any other
    value is a type error. -/
def storeString (old : Bytes) : JValue → Bytes
  | .string s => s
  | _ => old

/-- Decoding of an `int` or `int64` field: a number literal that `ParseInt64` accepts is
    stored; `null` changes nothing; anything else (a fraction, an exponent, an overflow,
    another kind of value) is a type error. -/
def storeInt (old : Int) : JValue → Int
  | .number lit =>
    (match ParseInt64 lit with
     | some n => n
     | none => old)
  | _ => old

/-- Decoding of the `[]byte` field `RawMessage`, with the hidden part of its backing array:
    a string is base64 text and is stored when it decodes; `null` stores `nil`; an empty
    array stores an empty slice; an array is decoded element by element into the existing
    slice, which is then cut to the number of elements. -/
def storeBytes (old hidden : Bytes) : JValue → Bytes × Bytes
  | .string s =>
    (match base64Decode s with
     | some b => (b, [])
     | none => (old, hidden))
  | .null => ([], [])
  | .array [] => ([], [])
  | .array elems => (decodeElems (old ++ hidden) elems, (old ++ hidden).drop elems.length)
  | _ => (old, hidden)

/-- One member of the object under `error`, decoded into `APIError`; a key that selects no
    field is skipped. -/
def storeField (st : EnvState) (key : Bytes) (val : JValue) : EnvState :=
  if keyIs key "code" then { st with apiErr := { st.apiErr with Code := storeString st.apiErr.Code val } }
  else if keyIs key "message" then
    { st with apiErr := { st.apiErr with Message := storeString st.apiErr.Message val } }
  else if keyIs key "StatusCode" then
    { st with apiErr := { st.apiErr with StatusCode := storeInt st.apiErr.StatusCode val } }
  else if keyIs key "RawMessage" then
    { st with apiErr := { st.apiErr with RawMessage := (storeBytes st.apiErr.RawMessage st.hidden val).1 },
              hidden := (storeBytes st.apiErr.RawMessage st.hidden val).2 }
  else if keyIs key "RetryAfter" then
    { st with apiErr := { st.apiErr with RetryAfter := storeInt st.apiErr.RetryAfter val } }
  else st

/-- Decoding of the value of a member `error` into the `*APIError` field: `null` sets the
    pointer to nil, after which `apiErr` is out of reach (a later object is decoded into a
    fresh `APIError`); an object fills the error the pointer refers to; any other value is
    a type error. -/
def storeError (st : EnvState) : JValue → EnvState
  | .null => { st with attached := false }
  | .object members =>
    if st.attached then members.foldl (fun s kv => storeField s kv.1 kv.2) st else st
  | _ => st

/-- The statement `_ = json.Unmarshal(data, &tmp)` with `tmp.Error = &apiErr`: the value
    `apiErr` has afterwards. An invalid document, and a document that is not an object,
    change nothing. -/
def unmarshalEnvelope (data : Bytes) (apiErr : APIError) : APIError :=
  match parseJSON data with
  | some (.object members) =>
    (members.foldl (fun st kv => if keyIs kv.1 "error" then storeError st kv.2 else st)
      { apiErr := apiErr, hidden := [], attached := true }).apiErr
  | _ => apiErr

/-! ## `Client.DoRequest` -/

/-- The request `DoRequest` builds: method, URL, header map and the body reader given
    (`none` for a nil reader). -/
structure Request where
  Method : Bytes
  URL : Bytes
  Header : Header
  Body : Option Bytes
deriving DecidableEq, Repr

/-- What `c.http.Do` hands back: status, header map, and what `io.ReadAll(resp.Body)`
    yields (the bytes of the body, or a read error). -/
structure Response where
  StatusCode : Int
  Header : Header
  Body : Except GoError Bytes

/-- Everything outside `DoRequest` that a call depends on. The output target `v` has a
    state of type `α`.
    * `version`: the package variable `version` (set at build time).
    * `newRequest method url`: the error of `http.NewRequestWithContext`, `none` when the
      request is built.
    * `Do n req`: the answer of `c.http.Do(req)` to send number `n` of the call, counted
      from 0.
    * `ctxDone n d`: in the `select` that follows send `n`, with delay `d`: `some e` when
      `<-ctx.Done()` is taken, `e` being `ctx.Err()`; `none` when the timer fires.
    * `unmarshal data t`: what `json.Unmarshal(data, v)` makes of the target and the error
      it returns. -/
structure World (α : Type) where
  version : Bytes
  newRequest : Bytes → Bytes → Option GoError
  Do : Nat → Request → Except GoError Response
  ctxDone : Nat → Int → Option GoError
  unmarshal : Bytes → α → α × Option GoError

/-- The return statements of `DoRequest`, in source order; `afterLoop` is the trailing
    `return lastErr`. -/
inductive ReturnSite where
  | buildRequest
  | transport
  | readBody
  | cancelled
  | apiError
  | noContent
  | decodeError
  | success
  | afterLoop
deriving DecidableEq, Repr

/-- What a call of `DoRequest` did: the error returned (`none` is nil), the output target
    afterwards, the requests handed to `c.http.Do`, the responses it gave back, the delays
    handed to `time.After` (all three in order), and the return statement taken. -/
structure Outcome (α : Type) where
  err : Option GoError
  v : Option α
  sent : List Request
  received : List Response
  delays : List Int
  site : ReturnSite

/-- The delay a 429 response asks for: `Retry-After` seconds when `strconv.Atoi` reads a
    positive integer, one second otherwise. -/
def retryDelay (retry : Bytes) : Int :=
  match Atoi retry with
  | some secs => if secs > 0 then secondsToDuration secs else 1 * Second
  | none => 1 * Second

/-- The error value `apiErr` of the branch `resp.StatusCode >= 300`, as it stands when the
    retry test is reached: status and raw body, then the envelope decoded over it, then,
    for a response with status 429, the delay from the header. -/
def buildAPIError (resp : Response) (data : Bytes) : APIError :=
  let apiErr : APIError := { StatusCode := resp.StatusCode, RawMessage := data }
  let apiErr := unmarshalEnvelope data apiErr
  if resp.StatusCode = 429 then
    { apiErr with RetryAfter := retryDelay (resp.Header.Get (str "Retry-After")) }
  else apiErr

/-- Adds one completed iteration (a send, its response, the delay waited) in front of what
    the rest of the loop did. -/
def Outcome.after {α : Type} (req : Request) (resp : Response) (delay : Int) (o : Outcome α) :
    Outcome α :=
  { o with sent := req :: o.sent, received := resp :: o.received, delays := delay :: o.delays }

/-- The loop `for attempt := 0; attempt <= maxRetries; attempt++` of `DoRequest`, from the
    given value of `attempt` on. The first argument bounds the number of iterations; the
    loop is entered with `maxRetries + 1` and `attempt = 0`, and `attempt` grows by one per
    iteration, so the bound is used up exactly when the guard fails. `lastErr` is never
    assigned, so the statement after the loop returns nil. -/
def DoRequest.loop {α : Type} (w : World α) (req : Request) (v : Option α)
    (errorOnNoContent : Bool) : Nat → Nat → Outcome α
  | 0, _ => { err := none, v := v, sent := [], received := [], delays := [], site := .afterLoop }
  | fuel + 1, attempt =>
    if attempt ≤ maxRetries then
      match w.Do attempt req with
      | .error err =>
        { err := some (.wrap "http request failed: %w" [] err), v := v,
          sent := [req], received := [], delays := [], site := .transport }
      | .ok resp =>
        match resp.Body with
        | .error err =>
          { err := some (.wrap "reading response body: %w" [] err), v := v,
            sent := [req], received := [resp], delays := [], site := .readBody }
        | .ok data =>
          if resp.StatusCode ≥ 300 then
            let apiErr := buildAPIError resp data
            if apiErr.StatusCode = 429 ∧ apiErr.RetryAfter > 0 ∧ attempt < maxRetries then
              match w.ctxDone attempt apiErr.RetryAfter with
              | none =>
                (DoRequest.loop w req v errorOnNoContent fuel (attempt + 1)).after req resp
                  apiErr.RetryAfter
              | some ctxErr =>
                { err := some ctxErr, v := v,
                  sent := [req], received := [resp], delays := [apiErr.RetryAfter],
                  site := .cancelled }
            else
              { err := some (.api apiErr), v := v,
                sent := [req], received := [resp], delays := [], site := .apiError }
          else if resp.StatusCode = 204 then
            if errorOnNoContent then
              { err := some (.api { StatusCode := 204, Code := str "no_content",
                                    Message := str "no content" }),
                v := v, sent := [req], received := [resp], delays := [], site := .noContent }
            else
              { err := none, v := v,
                sent := [req], received := [resp], delays := [], site := .noContent }
          else
            match v with
            | some t =>
              (match w.unmarshal data t with
               | (t1, some err) =>
                 { err := some (.wrap "decoding response: %w; raw: %s" data err), v := some t1,
                   sent := [req], received := [resp], delays := [], site := .decodeError }
               | (t1, none) =>
                 { err := none, v := some t1,
                   sent := [req], received := [resp], delays := [], site := .success })
            | none =>
              { err := none, v := v,
                sent := [req], received := [resp], delays := [], site := .success }
    else { err := none, v := v, sent := [], received := [], delays := [], site := .afterLoop }

/-- The request of `DoRequest` once `http.NewRequestWithContext` has succeeded (an empty
    method stands for GET, the header map starts empty) and the three `Header.Set` calls
    are done. -/
def buildRequest (version : Bytes) (c : Client) (method endpoint : Bytes) (body : Option Bytes) :
    Request :=
  let h1 := Header.Set [] (str "User-Agent") (str "n8n-go/" ++ version)
  let h2 := if body.isSome then Header.Set h1 (str "Content-Type") (str "application/json") else h1
  { Method := if method = [] then str "GET" else method,
    URL := requestURL c endpoint,
    Header := Header.Set h2 (str "X-N8N-API-KEY") c.APIKey,
    Body := body }

/-- DoRequest of `client.go`. -/
def DoRequest {α : Type} (w : World α) (c : Client) (method endpoint : Bytes)
    (body : Option Bytes) (v : Option α) (errorOnNoContent : Bool) : Outcome α :=
  match w.newRequest method (requestURL c endpoint) with
  | some err =>
    { err := some (.wrap "failed to build request: %w" [] err), v := v,
      sent := [], received := [], delays := [], site := .buildRequest }
  | none =>
    DoRequest.loop w (buildRequest w.version c method endpoint body) v errorOnNoContent
      (maxRetries + 1) 0

/-! ## Concrete calls

A transport that plays a fixed list of responses, a context that is never cancelled and an
output target that keeps the bytes decoded into it; the responses used below. -/

/-- The world of the examples: send number `n` is answered by the `n`-th response of the
    list (a transport failure once the list is used up), every request can be built, the
    context is never cancelled, and `json.Unmarshal(data, v)` stores `data` in the target
    without error. -/
def scriptWorld (rs : List Response) : World Bytes :=
  { version := str "dev",
    newRequest := fun _ _ => none,
    Do := fun n _ =>
      match rs.get? n with
      | some r => .ok r
      | none => .error (.leaf "connection refused"),
    ctxDone := fun _ _ => none,
    unmarshal := fun data _ => (data, none) }

/-- The client of the tests: `NewClient("key", "https://x/")`. -/
def testClient : Client := NewClient (str "key") (str "https://x/") []

/-- The rate-limit answer of `TestDoRequest_RateLimitRetries`: status 429, `Retry-After: 1`,
    and the envelope with `code` and `message` as `http.Error` writes it (a line feed at
    the end). -/
def rateLimited : Response :=
  { StatusCode := 429,
    Header := [(str "Retry-After", [str "1"])],
    Body := .ok (str "\x7b\"error\":\x7b\"code\":\"rate_limit\",\"message\":\"too many requests\"\x7d\x7d\n") }

/-- A response with status 204 and no body. -/
def noContentResponse : Response := { StatusCode := 204, Header := [], Body := .ok [] }

/-- A response with status 500 whose body is
    `{"error":{"StatusCode":429,"RetryAfter":1}}`. -/
def forged500 : Response :=
  { StatusCode := 500, Header := [],
    Body := .ok (str "\x7b\"error\":\x7b\"StatusCode\":429,\"RetryAfter\":1\x7d\x7d") }

/-- A response with status 503 whose body is
    `{"error":{"code":"busy","StatusCode":429,"RetryAfter":1000000}}`. -/
def forged503 : Response :=
  { StatusCode := 503, Header := [],
    Body := .ok (str "\x7b\"error\":\x7b\"code\":\"busy\",\"StatusCode\":429,\"RetryAfter\":1000000\x7d\x7d") }

/-- The body `{"error":{"code":"teapot","StatusCode":418,"RawMessage":"aGk="}}`. -/
def maskingBody : Bytes :=
  str "\x7b\"error\":\x7b\"code\":\"teapot\",\"StatusCode\":418,\"RawMessage\":\"aGk=\"\x7d\x7d"

/-- A response with status 500 and the body `maskingBody`. -/
def masking500 : Response := { StatusCode := 500, Header := [], Body := .ok maskingBody }

/-- A response with status 429 and `Retry-After: 9223372037`, no body. -/
def hugeRetryAfter : Response :=
  { StatusCode := 429, Header := [(str "Retry-After", [str "9223372037"])], Body := .ok [] }

/-- A response with status 101 (Switching Protocols) and the body `{"foo":"bar"}`. -/
def switching101 : Response :=
  { StatusCode := 101, Header := [], Body := .ok (str "\x7b\"foo\":\"bar\"\x7d") }

/-- A response with status 404 whose body is `{"error":{"StatusCode":400}}`. -/
def masked404 : Response :=
  { StatusCode := 404, Header := [],
    Body := .ok (str "\x7b\"error\":\x7b\"StatusCode\":400\x7d\x7d") }

/-! ## Properties of `NewClient` -/

theorem TrimRight_slash (b : Bytes) :
    TrimRight b (str "/") = b.rdropWhile (fun c => c == 47) := by
  have hs : str "/" = [47] := by decide
  rw [hs]
  unfold TrimRight trimRightByte
  by_cases hb : b = []
  · subst hb
    simp
  · simp [hb]

theorem rdropWhile_append_replicate (b : Bytes) :
    ∃ n, b = b.rdropWhile (fun c => c == 47) ++ List.replicate n 47 := by
  induction b using List.reverseRecOn with
  | nil => exact ⟨0, by simp⟩
  | append_singleton l x ih =>
    by_cases hx : x = 47
    · obtain ⟨n, hn⟩ := ih
      refine ⟨n + 1, ?_⟩
      subst hx
      rw [List.rdropWhile_concat_pos _ _ _ (by simp), List.replicate_succ', ← List.append_assoc,
        ← hn]
    · refine ⟨0, ?_⟩
      rw [List.rdropWhile_concat_neg _ _ _ (by simpa using hx)]
      simp

theorem rdropWhile_getLast?_ne (b : Bytes) :
    (b.rdropWhile (fun c => c == 47)).getLast? ≠ some 47 := by
  intro h
  have hne : b.rdropWhile (fun c => c == 47) ≠ [] := by
    intro h0
    rw [h0] at h
    simp at h
  have hlast := List.rdropWhile_last_not (fun c => c == 47) b hne
  rw [List.getLast?_eq_getLast _ hne] at h
  simp only [Option.some.injEq] at h
  rw [h] at hlast
  simp at hlast

theorem rdropWhile_unchanged (b : Bytes) :
    b.getLast? = some 47 ∨ b.rdropWhile (fun c => c == 47) = b := by
  induction b using List.reverseRecOn with
  | nil => right; simp
  | append_singleton l x _ =>
    by_cases hx : x = 47
    · left
      subst hx
      simp
    · right
      rw [List.rdropWhile_concat_neg _ _ _ (by simpa using hx)]

theorem foldl_WithHTTPClient (hs : List HTTPClient) (c : Client) :
    (List.foldl (fun c opt => opt c) c (hs.map WithHTTPClient)).APIKey = c.APIKey ∧
    (List.foldl (fun c opt => opt c) c (hs.map WithHTTPClient)).BaseURL = c.BaseURL := by
  induction hs generalizing c with
  | nil => simp
  | cons h t ih =>
    simp only [List.map_cons, List.foldl_cons]
    have := ih (WithHTTPClient h c)
    simpa [WithHTTPClient] using this

theorem NewClient_with_http_clients (k b : Bytes) (hs : List HTTPClient) :
    (NewClient k b (hs.map WithHTTPClient)).APIKey = k ∧
    (NewClient k b (hs.map WithHTTPClient)).BaseURL = b.rdropWhile (fun c => c == 47) := by
  unfold NewClient
  have h := foldl_WithHTTPClient hs
    { APIKey := k, BaseURL := TrimRight b (str "/"), http := { Timeout := defaultTimeout } }
  rw [TrimRight_slash] at h
  rw [TrimRight_slash]
  exact h

/-- C8. For every API key `k`, every base URL `b` and every list of `WithHTTPClient`
    options (none included), `NewClient` stores `APIKey = k` and a `BaseURL` that does not
    end in `/` and is `b` without some number `n` of `/` at its end; building a client from
    a stored `BaseURL` stores it again unchanged; a `b` that does not end in `/` is stored
    as it is; and for the bases `https://x/` and `https://x///` with path `/y` the request
    URL `BaseURL + path` is `https://x/y`. -/
theorem NewClient_base_url_normalised (k b : Bytes) (hs : List HTTPClient) :
    (NewClient k b (hs.map WithHTTPClient)).APIKey = k ∧
    (NewClient k b (hs.map WithHTTPClient)).BaseURL.getLast? ≠ some 47 ∧
    (∃ n, b = (NewClient k b (hs.map WithHTTPClient)).BaseURL ++ List.replicate n 47) ∧
    (NewClient k (NewClient k b (hs.map WithHTTPClient)).BaseURL (hs.map WithHTTPClient)).BaseURL
      = (NewClient k b (hs.map WithHTTPClient)).BaseURL ∧
    (b.getLast? = some 47 ∨ (NewClient k b (hs.map WithHTTPClient)).BaseURL = b) ∧
    requestURL (NewClient k (str "https://x/") (hs.map WithHTTPClient)) (str "/y")
      = str "https://x/y" ∧
    requestURL (NewClient k (str "https://x///") (hs.map WithHTTPClient)) (str "/y")
      = str "https://x/y" := by
  have hx1 : (str "https://x/").rdropWhile (fun c => c == 47) = str "https://x" := by decide
  have hx3 : (str "https://x///").rdropWhile (fun c => c == 47) = str "https://x" := by decide
  have hurl : str "https://x" ++ str "/y" = str "https://x/y" := by decide
  refine ⟨(NewClient_with_http_clients k b hs).1, ?_, ?_, ?_, ?_, ?_, ?_⟩
  · rw [(NewClient_with_http_clients k b hs).2]
    exact rdropWhile_getLast?_ne b
  · rw [(NewClient_with_http_clients k b hs).2]
    exact rdropWhile_append_replicate b
  · rw [(NewClient_with_http_clients k _ hs).2, (NewClient_with_http_clients k b hs).2]
    exact List.rdropWhile_idempotent _ b
  · rw [(NewClient_with_http_clients k b hs).2]
    exact rdropWhile_unchanged b
  · unfold requestURL
    rw [(NewClient_with_http_clients k _ hs).2, hx1, hurl]
  · unfold requestURL
    rw [(NewClient_with_http_clients k _ hs).2, hx3, hurl]

/-! ## Properties of the retry loop -/

section Loop

variable {α : Type}

/-- The iteration bound does not cut the loop short: from any value of `attempt`, one more
    unit beyond `maxRetries + 1 - attempt` changes nothing, because the guard
    `attempt <= maxRetries` ends the loop first. -/
theorem loop_bound_irrelevant (w : World α) (req : Request) (v : Option α) (flag : Bool)
    (fuel attempt : Nat) (h : maxRetries + 1 ≤ attempt + fuel) :
    DoRequest.loop w req v flag (fuel + 1) attempt = DoRequest.loop w req v flag fuel attempt := by
  induction fuel generalizing attempt with
  | zero =>
    have hgt : ¬ attempt ≤ maxRetries := by omega
    simp [DoRequest.loop, hgt]
  | succ fuel ih =>
    conv_lhs => unfold DoRequest.loop
    conv_rhs => unfold DoRequest.loop
    rw [ih (attempt + 1) (by omega)]

theorem loop_sent_length (w : World α) (req : Request) (v : Option α) (flag : Bool)
    (fuel attempt : Nat) : (DoRequest.loop w req v flag fuel attempt).sent.length ≤ fuel := by
  induction fuel generalizing attempt with
  | zero => simp [DoRequest.loop]
  | succ fuel ih =>
    unfold DoRequest.loop
    dsimp only
    split
    · split
      · simp
      · split
        · simp
        · split
          · split
            · split
              · have := ih (attempt + 1)
                simp only [Outcome.after, List.length_cons]
                omega
              · simp
            · simp
          · split
            · split <;> simp
            · split
              · split <;> simp
              · simp
    · simp

theorem loop_sent_eq (w : World α) (req : Request) (v : Option α) (flag : Bool)
    (fuel attempt : Nat) : ∀ r ∈ (DoRequest.loop w req v flag fuel attempt).sent, r = req := by
  induction fuel generalizing attempt with
  | zero => simp [DoRequest.loop]
  | succ fuel ih =>
    unfold DoRequest.loop
    dsimp only
    split
    · split
      · simp
      · split
        · simp
        · split
          · split
            · split
              · intro r hr
                simp only [Outcome.after, List.mem_cons] at hr
                rcases hr with hr | hr
                · exact hr
                · exact ih (attempt + 1) r hr
              · simp
            · simp
          · split
            · split <;> simp
            · split
              · split <;> simp
              · simp
    · simp

theorem loop_site (w : World α) (req : Request) (v : Option α) (flag : Bool)
    (fuel attempt : Nat) (hle : attempt ≤ maxRetries) (hfuel : attempt + fuel = maxRetries + 1) :
    (DoRequest.loop w req v flag fuel attempt).site ≠ .afterLoop ∧
    (DoRequest.loop w req v flag fuel attempt).site ≠ .buildRequest := by
  induction fuel generalizing attempt with
  | zero => omega
  | succ fuel ih =>
    unfold DoRequest.loop
    dsimp only
    split
    · split
      · simp
      · split
        · simp
        · split
          · split
            · rename_i hretry
              split
              · have := ih (attempt + 1) (by omega) (by omega)
                simpa [Outcome.after] using this
              · simp
            · simp
          · split
            · split <;> simp
            · split
              · split <;> simp
              · simp
    · omega

theorem loop_nil_last (w : World α) (req : Request) (v : Option α) (flag : Bool)
    (fuel attempt : Nat) (hle : attempt ≤ maxRetries) (hfuel : attempt + fuel = maxRetries + 1) :
    (DoRequest.loop w req v flag fuel attempt).err ≠ none ∨
    ∃ r, (DoRequest.loop w req v flag fuel attempt).received.getLast? = some r ∧
      r.StatusCode < 300 := by
  induction fuel generalizing attempt with
  | zero => omega
  | succ fuel ih =>
    unfold DoRequest.loop
    dsimp only
    split
    · split
      · simp
      · rename_i _ resp hdo
        split
        · simp
        · rename_i _ data hbody
          split
          · split
            · rename_i hretry
              split
              · rcases ih (attempt + 1) (by omega) (by omega) with h | ⟨r, hr, hlt⟩
                · left
                  simpa [Outcome.after] using h
                · right
                  refine ⟨r, ?_, hlt⟩
                  simp only [Outcome.after]
                  rw [List.getLast?_cons, hr]
                  rfl
              · simp
            · simp
          · rename_i hge
            have hlt : resp.StatusCode < 300 := by omega
            split
            · split
              · simp
              · right
                exact ⟨resp, by simp, hlt⟩
            · split
              · split
                · simp
                · right
                  exact ⟨resp, by simp, hlt⟩
              · right
                exact ⟨resp, by simp, hlt⟩
    · omega

theorem loop_no_content (w : World α) (req : Request) (v : Option α) (flag : Bool)
    (fuel attempt : Nat) (r : Response) (data : Bytes)
    (hlast : (DoRequest.loop w req v flag fuel attempt).received.getLast? = some r)
    (hs : r.StatusCode = 204) (hb : r.Body = .ok data) :
    (DoRequest.loop w req v flag fuel attempt).v = v ∧
    (DoRequest.loop w req v flag fuel attempt).err =
      (if flag then
        some (.api { StatusCode := 204, Code := str "no_content", Message := str "no content" })
       else none) ∧
    (DoRequest.loop w req v flag fuel attempt).site = .noContent := by
  induction fuel generalizing attempt with
  | zero => simp [DoRequest.loop] at hlast
  | succ fuel ih =>
    unfold DoRequest.loop at hlast ⊢
    dsimp only at hlast ⊢
    by_cases hg : attempt ≤ maxRetries
    · simp only [hg, if_true] at hlast ⊢
      cases hdo : w.Do attempt req with
      | error e => simp [hdo] at hlast
      | ok resp =>
        simp only [hdo] at hlast ⊢
        cases hbody : resp.Body with
        | error e =>
          simp only [hbody, List.getLast?_singleton, Option.some.injEq] at hlast
          subst hlast
          rw [hbody] at hb
          cases hb
        | ok data1 =>
          simp only [hbody] at hlast ⊢
          by_cases hge : resp.StatusCode ≥ 300
          · simp only [hge, if_true] at hlast ⊢
            by_cases hretry : (buildAPIError resp data1).StatusCode = 429 ∧
                (buildAPIError resp data1).RetryAfter > 0 ∧ attempt < maxRetries
            · simp only [hretry, and_self, if_true] at hlast ⊢
              cases hctx : w.ctxDone attempt (buildAPIError resp data1).RetryAfter with
              | none =>
                simp only [hctx, Outcome.after] at hlast ⊢
                rw [List.getLast?_cons] at hlast
                cases hrec : (DoRequest.loop w req v flag fuel (attempt + 1)).received.getLast? with
                | none =>
                  rw [hrec] at hlast
                  simp only [Option.getD_none, Option.some.injEq] at hlast
                  subst hlast
                  omega
                | some r1 =>
                  rw [hrec] at hlast
                  simp only [Option.getD_some, Option.some.injEq] at hlast
                  subst hlast
                  exact ih (attempt + 1) hrec
              | some e =>
                simp only [hctx, List.getLast?_singleton, Option.some.injEq] at hlast
                subst hlast
                omega
            · simp only [hretry, if_false, List.getLast?_singleton, Option.some.injEq] at hlast
              subst hlast
              omega
          · simp only [hge, if_false] at hlast ⊢
            by_cases h204 : resp.StatusCode = 204
            · simp only [h204, if_true]
              cases flag <;> simp
            · simp only [h204, if_false] at hlast
              have hr : resp = r := by
                split at hlast
                · split at hlast <;> simpa using hlast
                · simpa using hlast
              subst hr
              exact absurd hs h204
    · simp [hg] at hlast

end Loop

/-! ## Properties of `DoRequest` -/

/-- C10. Whatever the transport answers and whenever the context is cancelled, a call of
    `DoRequest` hands at most `maxRetries + 1 = 4` requests to the transport and never
    reaches the `return lastErr` that follows the loop: once the request is built it
    returns from inside the loop (the only return before the loop is the one for a request
    that cannot be built). It returns nil only if the last response received had a status
    below 300. -/
theorem DoRequest_never_falls_through {α : Type} (w : World α) (c : Client)
    (method endpoint : Bytes) (body : Option Bytes) (v : Option α) (flag : Bool) :
    (DoRequest w c method endpoint body v flag).sent.length ≤ maxRetries + 1 ∧
    maxRetries + 1 = 4 ∧
    (DoRequest w c method endpoint body v flag).site ≠ .afterLoop ∧
    ((w.newRequest method (requestURL c endpoint)).isSome ∨
      (DoRequest w c method endpoint body v flag).site ≠ .buildRequest) ∧
    ((DoRequest w c method endpoint body v flag).err ≠ none ∨
      ∃ r, (DoRequest w c method endpoint body v flag).received.getLast? = some r ∧
        r.StatusCode < 300) := by
  unfold DoRequest
  cases hnew : w.newRequest method (requestURL c endpoint) with
  | some e => simp [maxRetries]
  | none =>
    dsimp only
    have hsite := loop_site w (buildRequest w.version c method endpoint body) v flag
      (maxRetries + 1) 0 (Nat.zero_le _) (by omega)
    exact ⟨loop_sent_length _ _ _ _ _ _, rfl, hsite.1, Or.inr hsite.2,
      loop_nil_last _ _ _ _ _ _ (Nat.zero_le _) (by omega)⟩

/-- C5. If the last response a call of `DoRequest` received has status 204 (its body read
    without error, whatever bytes it holds), then the output target is left as it was, and
    the call returns nil when `errorOnNoContent` is false and exactly
    `APIError{StatusCode: 204, Code: "no_content", Message: "no content"}` (empty
    `RawMessage`, zero `RetryAfter`) when it is true; for that error `noContent` is true
    and `NotFound` is false. -/
theorem DoRequest_no_content {α : Type} (w : World α) (c : Client)
    (method endpoint : Bytes) (body : Option Bytes) (v : Option α) (errorOnNoContent : Bool)
    (r : Response) (data : Bytes)
    (hlast : (DoRequest w c method endpoint body v errorOnNoContent).received.getLast? = some r)
    (hs : r.StatusCode = 204) (hb : r.Body = .ok data) :
    (DoRequest w c method endpoint body v errorOnNoContent).v = v ∧
    (DoRequest w c method endpoint body v errorOnNoContent).err =
      (if errorOnNoContent then
        some (.api { Code := str "no_content", Message := str "no content", StatusCode := 204,
                     RawMessage := [], RetryAfter := 0 })
       else none) ∧
    noContent (some (.api { Code := str "no_content", Message := str "no content",
                            StatusCode := 204, RawMessage := [], RetryAfter := 0 })) = true ∧
    NotFound (some (.api { Code := str "no_content", Message := str "no content",
                           StatusCode := 204, RawMessage := [], RetryAfter := 0 })) = false := by
  unfold DoRequest at hlast ⊢
  cases hnew : w.newRequest method (requestURL c endpoint) with
  | some e =>
    rw [hnew] at hlast
    simp at hlast
  | none =>
    rw [hnew] at hlast
    dsimp only at hlast ⊢
    have h := loop_no_content w _ v errorOnNoContent _ _ r data hlast hs hb
    exact ⟨h.1, h.2.1, by decide, by decide⟩


theorem buildRequest_headers (version : Bytes) (c : Client) (method endpoint : Bytes)
    (body : Option Bytes) :
    (buildRequest version c method endpoint body).Header.Has (str "X-N8N-API-KEY") = true ∧
    (buildRequest version c method endpoint body).Header.Get (str "X-N8N-API-KEY") = c.APIKey ∧
    (buildRequest version c method endpoint body).Header.Has (str "User-Agent") = true ∧
    (buildRequest version c method endpoint body).Header.Get (str "User-Agent")
      = str "n8n-go/" ++ version ∧
    (buildRequest version c method endpoint body).Header.Has (str "Content-Type") = body.isSome ∧
    (buildRequest version c method endpoint body).Header.Get (str "Content-Type")
      = (if body.isSome then str "application/json" else []) := by
  have k1 : CanonicalMIMEHeaderKey (str "User-Agent") = str "User-Agent" := by decide
  have k2 : CanonicalMIMEHeaderKey (str "Content-Type") = str "Content-Type" := by decide
  have k3 : CanonicalMIMEHeaderKey (str "X-N8N-API-KEY") = str "X-N8n-Api-Key" := by decide
  have n12 : (str "User-Agent" == str "Content-Type") = false := by decide
  have n13 : (str "User-Agent" == str "X-N8n-Api-Key") = false := by decide
  have n21 : (str "Content-Type" == str "User-Agent") = false := by decide
  have n23 : (str "Content-Type" == str "X-N8n-Api-Key") = false := by decide
  have n31 : (str "X-N8n-Api-Key" == str "User-Agent") = false := by decide
  have n32 : (str "X-N8n-Api-Key" == str "Content-Type") = false := by decide
  cases body with
  | none =>
    simp [buildRequest, Header.Set, Header.Get, Header.Has, k1, k2, k3, List.lookup, List.filter,
      n12, n13, n21, n23, n31, n32, bne]
  | some b =>
    simp [buildRequest, Header.Set, Header.Get, Header.Has, k1, k2, k3, List.lookup, List.filter,
      n12, n13, n21, n23, n31, n32, bne]

/-- C7, as amended. Every request a call of `DoRequest` hands to the transport, on the first
    attempt and on every retry, carries the header `X-N8N-API-KEY` with the client's `APIKey`
    as its value (so the value is empty exactly when `APIKey` is the empty string) and the
    header `User-Agent` with the value `n8n-go/` followed by the version string, which is
    never empty; `Content-Type` is present exactly when a body is supplied, and is then
    `application/json`. -/
theorem DoRequest_request_headers {α : Type} (w : World α) (c : Client)
    (method endpoint : Bytes) (body : Option Bytes) (v : Option α) (flag : Bool)
    (req : Request) (hreq : req ∈ (DoRequest w c method endpoint body v flag).sent) :
    req.Header.Has (str "X-N8N-API-KEY") = true ∧
    req.Header.Get (str "X-N8N-API-KEY") = c.APIKey ∧
    req.Header.Has (str "User-Agent") = true ∧
    req.Header.Get (str "User-Agent") = str "n8n-go/" ++ w.version ∧
    req.Header.Get (str "User-Agent") ≠ [] ∧
    req.Header.Has (str "Content-Type") = body.isSome ∧
    req.Header.Get (str "Content-Type") = (if body.isSome then str "application/json" else []) := by
  have hbuilt : req = buildRequest w.version c method endpoint body := by
    unfold DoRequest at hreq
    cases hnew : w.newRequest method (requestURL c endpoint) with
    | some e =>
      rw [hnew] at hreq
      simp at hreq
    | none =>
      rw [hnew] at hreq
      exact loop_sent_eq _ _ _ _ _ _ req hreq
  subst hbuilt
  obtain ⟨h1, h2, h3, h4, h5, h6⟩ := buildRequest_headers w.version c method endpoint body
  refine ⟨h1, h2, h3, h4, ?_, h5, h6⟩
  rw [h4]
  have hne : str "n8n-go/" ≠ [] := by decide
  intro h
  exact hne (List.append_eq_nil.mp h).1

/-! ## What holds of the error path -/

/-- The predicate `NotFound` is true exactly for a non-nil error whose unwrap chain holds an
    `APIError`, the first of which has `StatusCode` 404. -/
theorem NotFound_iff (err : Option GoError) :
    NotFound err = true ↔ ∃ e a, err = some e ∧ errorsAs e = some a ∧ a.StatusCode = 404 := by
  cases err with
  | none => simp [NotFound]
  | some e =>
    cases h : errorsAs e with
    | none => simp [NotFound, h]
    | some a => simp [NotFound, h]

/-- The predicate `NotFound` is false for nil, for an error without an `APIError` on its
    chain, and for an `APIError` with a status other than 404 whatever its other fields. -/
theorem NotFound_false_cases (msg : String) (a : APIError) :
    NotFound none = false ∧ NotFound (some (.leaf msg)) = false ∧
    NotFound (some (.wrap msg [] (.leaf msg))) = false ∧
    (a.StatusCode = 404 ∨ NotFound (some (.api a)) = false) := by
  refine ⟨rfl, rfl, rfl, ?_⟩
  by_cases h : a.StatusCode = 404
  · exact Or.inl h
  · right
    simp [NotFound, errorsAs, h]

/-- The delay of a 429 response is one second unless `strconv.Atoi` reads a positive integer
    from `Retry-After`, and then it is the `int64` product of that integer and `time.Second`. -/
theorem retryDelay_cases (retry : Bytes) :
    (∃ n, Atoi retry = some n ∧ 0 < n ∧ retryDelay retry = wrapInt64 (n * 1000000000)) ∨
    ((Atoi retry = none ∨ ∃ n, Atoi retry = some n ∧ n ≤ 0) ∧ retryDelay retry = 1000000000) := by
  unfold retryDelay
  cases h : Atoi retry with
  | none => right; simp [Second]
  | some n =>
    by_cases hn : 0 < n
    · left
      exact ⟨n, rfl, hn, by simp [hn, secondsToDuration, Second]⟩
    · right
      exact ⟨Or.inr ⟨n, rfl, by omega⟩, by simp [hn, Second]⟩

/-- Up to 9223372036 seconds the product does not wrap: the delay is exactly `n` seconds
    and positive. -/
theorem retryDelay_in_range (retry : Bytes) (n : Int) (h : Atoi retry = some n) (hpos : 0 < n)
    (hle : n ≤ 9223372036) :
    retryDelay retry = n * 1000000000 ∧ 0 < retryDelay retry := by
  have hwrap : wrapInt64 (n * 1000000000) = n * 1000000000 := by
    unfold wrapInt64
    have h1 : (n * 1000000000 + 2 ^ 63) % 2 ^ 64 = n * 1000000000 + 2 ^ 63 :=
      Int.emod_eq_of_lt (by norm_num; omega) (by norm_num; omega)
    rw [h1]
    ring
  unfold retryDelay
  simp only [h, gt_iff_lt, hpos, if_true, secondsToDuration, Second, hwrap]
  exact ⟨trivial, by omega⟩

/-- A body that is not a JSON object leaves the error as it was built from the response. -/
theorem buildAPIError_of_no_object (resp : Response) (data : Bytes)
    (h : ∀ members, parseJSON data ≠ some (.object members)) (h429 : resp.StatusCode ≠ 429) :
    buildAPIError resp data = { StatusCode := resp.StatusCode, RawMessage := data } := by
  unfold buildAPIError unmarshalEnvelope
  simp only [h429, if_false]

/-- The error path of one response: when the first response has a status of 300 or more
    and the decoded error does not carry status 429, there is exactly one send, no wait,
    and the decoded error is returned. -/
theorem DoRequest_single_send {α : Type} (w : World α) (c : Client) (method endpoint : Bytes)
    (body : Option Bytes) (v : Option α) (flag : Bool) (resp : Response) (data : Bytes)
    (hnew : w.newRequest method (requestURL c endpoint) = none)
    (hdo : w.Do 0 (buildRequest w.version c method endpoint body) = .ok resp)
    (hbody : resp.Body = .ok data) (hge : resp.StatusCode ≥ 300)
    (hdec : (buildAPIError resp data).StatusCode ≠ 429) :
    (DoRequest w c method endpoint body v flag).sent.length = 1 ∧
    (DoRequest w c method endpoint body v flag).delays = [] ∧
    (DoRequest w c method endpoint body v flag).err = some (.api (buildAPIError resp data)) ∧
    (DoRequest w c method endpoint body v flag).v = v := by
  unfold DoRequest
  rw [hnew]
  dsimp only
  unfold DoRequest.loop
  simp [maxRetries, hdo, hbody, hge, hdec]

/-- The call of `TestDoRequest_RateLimitRetries`: for `k` rate-limit answers followed by a
    204, `k` from 0 to 3, there are `k + 1` sends and the call returns nil; after four
    rate-limit answers there are four sends and the error of the fourth is returned. -/
theorem DoRequest_rate_limit_test :
    (∀ k, k ≤ 3 →
      (DoRequest (scriptWorld (List.replicate k rateLimited ++ [noContentResponse])) testClient
        (str "GET") (str "/") none none false).sent.length = k + 1 ∧
      (DoRequest (scriptWorld (List.replicate k rateLimited ++ [noContentResponse])) testClient
        (str "GET") (str "/") none none false).delays = List.replicate k 1000000000 ∧
      (DoRequest (scriptWorld (List.replicate k rateLimited ++ [noContentResponse])) testClient
        (str "GET") (str "/") none none false).err = none) ∧
    (DoRequest (scriptWorld (List.replicate 5 rateLimited)) testClient
      (str "GET") (str "/") none none false).sent.length = 4 ∧
    (DoRequest (scriptWorld (List.replicate 5 rateLimited)) testClient
      (str "GET") (str "/") none none false).err
      = some (.api { Code := str "rate_limit", Message := str "too many requests",
                     StatusCode := 429,
                     RawMessage := str "\x7b\"error\":\x7b\"code\":\"rate_limit\",\"message\":\"too many requests\"\x7d\x7d\n",
                     RetryAfter := 1000000000 }) := by
  refine ⟨?_, by decide, by decide⟩
  intro k hk
  interval_cases k <;> decide

/-! ## The calls that go wrong -/

/-- C1. A response with status 500 whose body is `{"error":{"StatusCode":429,"RetryAfter":1}}`
    is retried: the envelope overwrites `apiErr.StatusCode` and `apiErr.RetryAfter`, the
    retry test reads them, and `DoRequest` waits one nanosecond, sends a second request and
    returns what the second response (204) gives, nil. -/
theorem DoRequest_retries_forged_500 :
    (DoRequest (scriptWorld [forged500, noContentResponse]) testClient (str "GET") (str "/")
      none none false).sent.length = 2 ∧
    (DoRequest (scriptWorld [forged500, noContentResponse]) testClient (str "GET") (str "/")
      none none false).delays = [1] ∧
    (DoRequest (scriptWorld [forged500, noContentResponse]) testClient (str "GET") (str "/")
      none none false).err = none := by
  decide

/-- C2. With 429, 429 and then a response with status 503 (`k = 2`) whose envelope sets
    `StatusCode` to 429 and `RetryAfter` to a positive number, `DoRequest` sends a fourth
    request and returns what the fourth response (204) gives, nil: four sends where three
    are claimed, and a result that response 3 does not determine. -/
theorem DoRequest_rate_limit_then_forged_503 :
    (DoRequest (scriptWorld [rateLimited, rateLimited, forged503, noContentResponse]) testClient
      (str "GET") (str "/") none none false).sent.length = 4 ∧
    (DoRequest (scriptWorld [rateLimited, rateLimited, forged503, noContentResponse]) testClient
      (str "GET") (str "/") none none false).delays = [1000000000, 1000000000, 1000000] ∧
    (DoRequest (scriptWorld [rateLimited, rateLimited, forged503, noContentResponse]) testClient
      (str "GET") (str "/") none none false).err = none := by
  decide

/-- C3. For the response with status 500 and the body
    `{"error":{"code":"teapot","StatusCode":418,"RawMessage":"aGk="}}` the error returned
    has `StatusCode` 418 and `RawMessage` `hi`: neither the status of the response nor the
    bytes of its body. -/
theorem DoRequest_envelope_masks_status_and_body :
    (DoRequest (scriptWorld [masking500]) testClient (str "GET") (str "/") none none false).err
      = some (.api { Code := str "teapot", Message := [], StatusCode := 418,
                     RawMessage := str "hi", RetryAfter := 0 }) ∧
    masking500.StatusCode = 500 ∧ maskingBody ≠ str "hi" := by
  decide

/-- C4. For a response with status 429 and `Retry-After: 9223372037`, which `strconv.Atoi`
    reads as the positive integer 9223372037, the delay recorded is the wrapped product
    -9223372036709551616 nanoseconds, not 9223372037 seconds; it is not positive, so the
    response is not retried although attempts remain: one send, no wait, and the error is
    returned with the negative `RetryAfter`. -/
theorem DoRequest_retry_after_overflow :
    Atoi (str "9223372037") = some 9223372037 ∧
    retryDelay (str "9223372037") = -9223372036709551616 ∧
    (DoRequest (scriptWorld [hugeRetryAfter, noContentResponse]) testClient (str "GET") (str "/")
      none none false).sent.length = 1 ∧
    (DoRequest (scriptWorld [hugeRetryAfter, noContentResponse]) testClient (str "GET") (str "/")
      none none false).delays = [] ∧
    (DoRequest (scriptWorld [hugeRetryAfter, noContentResponse]) testClient (str "GET") (str "/")
      none none false).err
      = some (.api { Code := [], Message := [], StatusCode := 429, RawMessage := [],
                     RetryAfter := -9223372036709551616 }) := by
  decide

/-- C6. For a response with status 101, which is outside 200..299, `DoRequest` returns nil
    and decodes the body into the output target. -/
theorem DoRequest_status_101_is_success :
    (DoRequest (scriptWorld [switching101]) testClient (str "GET") (str "/") none (some [])
      false).err = none ∧
    (DoRequest (scriptWorld [switching101]) testClient (str "GET") (str "/") none (some [])
      false).v = some (str "\x7b\"foo\":\"bar\"\x7d") ∧
    (DoRequest (scriptWorld [switching101]) testClient (str "GET") (str "/") none (some [])
      false).site = .success := by
  decide

/-- C9. For the response with status 404 and the body `{"error":{"StatusCode":400}}` the
    error `DoRequest` returns is an `APIError` with `StatusCode` 400, and `NotFound` is
    false for it. -/
theorem NotFound_false_for_masked_404 :
    masked404.StatusCode = 404 ∧
    NotFound (DoRequest (scriptWorld [masked404]) testClient (str "GET") (str "/") none none
      false).err = false ∧
    (DoRequest (scriptWorld [masked404]) testClient (str "GET") (str "/") none none false).err
      = some (.api { Code := [], Message := [], StatusCode := 400,
                     RawMessage := str "\x7b\"error\":\x7b\"StatusCode\":400\x7d\x7d",
                     RetryAfter := 0 }) := by
  decide

/-- C7, as stated, fails for the client `NewClient("", "https://x")`, which `NewClient`
    accepts: the one request sent carries `X-N8N-API-KEY` with an empty value. -/
theorem DoRequest_empty_api_key_header :
    (DoRequest (scriptWorld [noContentResponse]) (NewClient [] (str "https://x") []) (str "GET")
      (str "/") none none false).sent.map (fun req => req.Header.Get (str "X-N8N-API-KEY"))
      = [[]] := by
  decide

/-- Witness of `DoRequest_request_headers`: the request of the first attempt of a call
    with a body. -/
theorem DoRequest_request_headers_witness :
    (buildRequest (str "dev") testClient (str "POST") (str "/y") (some (str "1"))).Header.Get
      (str "X-N8N-API-KEY") = str "key" :=
  (DoRequest_request_headers (scriptWorld [rateLimited, noContentResponse]) testClient
    (str "POST") (str "/y") (some (str "1")) none false
    (buildRequest (str "dev") testClient (str "POST") (str "/y") (some (str "1")))
    (by decide)).2.1

/-- Witness of `DoRequest_no_content`: the call of `TestDoRequest_RateLimitRetries` (429,
    429, 204) with `errorOnNoContent` set returns the `no_content` error. -/
theorem DoRequest_no_content_witness :
    (DoRequest (scriptWorld [rateLimited, rateLimited, noContentResponse]) testClient (str "GET")
      (str "/") none (some (str "old")) true).v = some (str "old") ∧
    (DoRequest (scriptWorld [rateLimited, rateLimited, noContentResponse]) testClient (str "GET")
      (str "/") none (some (str "old")) true).err
      = some (.api { Code := str "no_content", Message := str "no content", StatusCode := 204,
                     RawMessage := [], RetryAfter := 0 }) :=
  have h := DoRequest_no_content (scriptWorld [rateLimited, rateLimited, noContentResponse])
    testClient (str "GET") (str "/") none (some (str "old")) true noContentResponse [] rfl rfl rfl
  ⟨h.1, h.2.1⟩

end N8n
